import Mathlib

/-!
A shallow embedding, in Lean, of the two core source files of this
repository:

* `dm/syncer/binlog_locations.go` — the `locationRecorder` state machine
  that tracks the start, end, and transaction-end binlog locations for a
  stream of decoded binlog events;
* the relay-log `streamer.BinlogReader` — the multi-epoch relay directory
  reader: `parseFile`, `needSwitchSubDir`, `extractPos`,
  `fileSizeUpdated`, `getNextUUID`, `getFirstBinlogName` and the
  per-event callback `onEventFunc`.

Pure Go functions become Lean functions.  Effectful parts (filesystem
stat, directory listing, the external binlog event decoder, the directory
change watcher) are represented as explicit oracles inside a `ReaderEnv`
record; fallible Go code returns an `Outcome` (ok / error / runtime
panic).  Helper functions of the repository that are not part of the two
given files (`parseBinlogFile`, `utils.ParseSuffixForUUID`,
`utils.SuffixIntToStr`, `utils.GetUUIDBySuffix`, `utils.GenFakeRotateEvent`,
`utils.MetaFilename`, `binlog.FileHeaderLen`) are modelled from the spec;
each such definition is marked in its doc comment.
-/

namespace DM

/-! ## Binlog event model (go-mysql `replication` types) -/

/-- Event types named by the two source files (`replication.EventType`).
All other types are collapsed into `OTHER_EVENT`, which the code treats
uniformly. -/
inductive EventType where
  | FORMAT_DESCRIPTION_EVENT
  | HEARTBEAT_EVENT
  | IGNORABLE_EVENT
  | PREVIOUS_GTIDS_EVENT
  | MARIADB_GTID_LIST_EVENT
  | ROTATE_EVENT
  | XID_EVENT
  | QUERY_EVENT
  | MARIADB_GTID_EVENT
  | OTHER_EVENT
deriving DecidableEq, Repr

/-- `replication.EventHeader`: the fields read by the sources.
`logPos` and `flags` are `uint32`/`uint16` in Go; sequences here never
overflow them, so they are carried as `Nat`. -/
structure EventHeader where
  eventType : EventType
  timestamp : Nat
  serverID : Nat
  logPos : Nat
  flags : Nat
deriving DecidableEq, Repr

/-- The decoded event bodies the sources dispatch on (`e.Event.(type)`).
GTID sets are abstract (`Option Nat`): the recorder only stores them. -/
inductive EventBody where
  | rotate (nextLogName : String) (position : Nat)
  | xid (gset : Option Nat)
  | query (query : String) (gset : Option Nat)
  | mariadbGTID (isDDL : Bool)
  | other
deriving DecidableEq, Repr

/-- `replication.BinlogEvent`: a header plus a decoded body. -/
structure BinlogEvent where
  header : EventHeader
  event : EventBody
deriving DecidableEq, Repr

/-! ## Locations (`mysql.Position`, `binlog.Location`) -/

/-- `mysql.Position`: file name plus byte offset (`uint32` in Go). -/
structure Position where
  name : String
  pos : Nat
deriving DecidableEq, Repr

/-- `binlog.Location`: a position plus a GTID set (abstracted).  Value
semantics in Lean make every assignment a clone, matching
`Location.Clone` in Go. -/
structure Location where
  position : Position
  gtid : Option Nat
deriving DecidableEq, Repr

/-- Modelled from the spec: `binlog.FileHeaderLen`, the length of the
binlog file header; the spec and the reader both use 4 ("start from
pos 4 for next sub directory / file"). -/
def FileHeaderLen : Nat := 4

/-! ## `locationRecorder` (dm/syncer/binlog_locations.go) -/

/-- The `locationRecorder` struct, minus its mutex (`update` holds the
lock for its whole body, so the lock-free functional model is the
single-threaded semantics of the Go code). -/
structure locationRecorder where
  curStartLocation : Location
  curEndLocation : Location
  txnEndLocation : Location
  inDML : Bool
deriving DecidableEq, Repr

/-- `locationRecorder.reset`. -/
def reset (l : locationRecorder) (loc : Location) : locationRecorder :=
  { l with curStartLocation := loc, curEndLocation := loc, txnEndLocation := loc }

/-- `locationRecorder.saveTxnEndLocation`: `txnEndLocation = curEndLocation.Clone()`. -/
def saveTxnEndLocation (l : locationRecorder) : locationRecorder :=
  { l with txnEndLocation := l.curEndLocation }

/-- `locationRecorder.setCurrentGTID`: assigns the GTID set into
`curEndLocation` (the Go error path only logs). -/
def setCurrentGTID (l : locationRecorder) (gset : Option Nat) : locationRecorder :=
  { l with curEndLocation := { l.curEndLocation with gtid := gset } }

/-- `strings.TrimSpace` (Go standard library): strip leading and
trailing whitespace.  Queries in binlog events are ASCII, so the ASCII
whitespace class suffices. -/
def trimSpace (s : String) : String :=
  (((s.toList.dropWhile Char.isWhitespace).reverse.dropWhile Char.isWhitespace).reverse).asString

/-- `shouldUpdatePos`: false for header/heartbeat/ignorable/previous-GTIDs/
MariaDB-GTID-list events and for events with `LOG_EVENT_ARTIFICIAL_F`
(0x0020) set. -/
def shouldUpdatePos (e : BinlogEvent) : Bool :=
  match e.header.eventType with
  | .FORMAT_DESCRIPTION_EVENT | .HEARTBEAT_EVENT | .IGNORABLE_EVENT
  | .PREVIOUS_GTIDS_EVENT | .MARIADB_GTID_LIST_EVENT => false
  | _ => e.header.flags &&& 0x0020 == 0

/-- `locationRecorder.update`.  The local `lp` is the state after the
unconditional `curEndLocation.Position.Pos = e.Header.LogPos`
assignment (source line 138); the rotate branch returns before that
assignment and therefore uses `l`, not `lp`. -/
def update (l0 : locationRecorder) (e : BinlogEvent) : locationRecorder :=
  let l := { l0 with curStartLocation := l0.curEndLocation }
  if shouldUpdatePos e = false then l
  else
    let lp := { l with curEndLocation :=
      { l.curEndLocation with position := { l.curEndLocation.position with pos := e.header.logPos } } }
    match e.event with
    | .rotate nextLogName _ =>
      if l.curEndLocation.position.name ≠ nextLogName then
        saveTxnEndLocation { l with curEndLocation :=
          { l.curEndLocation with position := { name := nextLogName, pos := FileHeaderLen } } }
      else l
    | .xid gset =>
      { saveTxnEndLocation (setCurrentGTID lp gset) with inDML := false }
    | .query q gset =>
      let query := trimSpace q
      let lq :=
        if query = "BEGIN" then { lp with inDML := true }
        else if query = "COMMIT" then { lp with inDML := false }
        else lp
      if lq.inDML then lq
      else saveTxnEndLocation (setCurrentGTID lq gset)
    | .mariadbGTID isDDL =>
      if ¬ isDDL then { lp with inDML := true } else lp
    | .other => lp

/-- Feeding a sequence of events to `locationRecorder.update`. -/
def updates (l : locationRecorder) (es : List BinlogEvent) : locationRecorder :=
  es.foldl update l

/-! ## Go-style outcomes for the reader

Go functions of the reader return `(value, error)`; additionally
`fileSizeUpdated` can `panic`.  `Outcome` separates the three. -/

/-- The error kinds the reader distinguishes (`errors.NotFoundf`,
`errors.NotValidf`, everything else). -/
inductive GoError where
  | notFound (msg : String)
  | notValid (msg : String)
  | other (msg : String)
deriving DecidableEq, Repr

/-- Result of a fallible reader operation: normal value, returned error,
or Go runtime panic. -/
inductive Outcome (α : Type) where
  | ok (val : α)
  | err (e : GoError)
  | panicked (msg : String)
deriving DecidableEq, Repr

/-! ## Relay filename codec

`parseBinlogFile`, `constructBinlogFilename`, `baseSeqSeparator` and the
`utils` helpers live outside the two given files; they are modelled from
the spec's filename encoding `<baseName>[|<epochSuffix>].<sequenceNumber>`
(sequence numbers fixed-width decimal; epoch sub-directories named
`<uuid>.<suffixInt>`; e.g. `mysql-bin.000003` inside
`c6ae5afe-c7a3-11e8-a19d-0242ac130006.000002` encodes as
`mysql-bin|000002.000003`).  Names are treated as character lists; relay
names are ASCII, so character indices agree with Go's byte indices. -/

/-- `posUUIDSuffixSeparator = "|"` (source). -/
def posUUIDSuffixSeparator : String := "|"

/-- Modelled from the spec: `baseSeqSeparator`, the separator between the
base name and the sequence number (`base|suffix.seq`). -/
def baseSeqSeparator : String := "."

/-- Modelled from the spec: `utils.MetaFilename`, the fixed name of the
per-epoch metadata file skipped during file enumeration. -/
def MetaFilename : String := "relay.meta"

/-- Index of the first occurrence of a character, as `strings.Index`
(restricted to a one-character needle). -/
def strIndexOf : List Char → Char → Option Nat
  | [], _ => none
  | x :: xs, c => if x = c then some 0 else (strIndexOf xs c).map (· + 1)

/-- Value of a string of decimal digits. -/
def digitsToNat (cs : List Char) : Nat :=
  cs.foldl (fun a c => a * 10 + (c.toNat - '0'.toNat)) 0

/-- Index of the last `'.'` of a name, splitting it into the part before
and the part after. -/
def splitAtLastDot (cs : List Char) : Option (List Char × List Char) :=
  if '.' ∈ cs then
    let k := cs.length - 1 - (cs.reverse.indexOf '.')
    some (cs.take k, cs.drop (k + 1))
  else none

/-- The decomposed relay filename (`binlogFile` in the repository):
base name and sequence string. -/
structure binlogFile where
  baseName : String
  seq : String
deriving DecidableEq, Repr

/-- Modelled from the spec: `parseBinlogFile` splits
`<baseName>.<sequenceNumber>` at the last dot and requires a non-empty
base and a non-empty all-decimal sequence. -/
def parseBinlogFile (filename : String) : Except GoError binlogFile :=
  match splitAtLastDot filename.toList with
  | none => .error (.notValid s!"binlog filename {filename}")
  | some (base, seq) =>
    if base.isEmpty ∨ seq.isEmpty ∨ ¬ seq.all (·.isDigit) then
      .error (.notValid s!"binlog filename {filename}")
    else .ok ⟨base.asString, seq.asString⟩

/-- Modelled from the spec: `constructBinlogFilename` re-joins a base
name and a sequence with the base/sequence separator. -/
def constructBinlogFilename (baseName seq : String) : String :=
  baseName ++ baseSeqSeparator ++ seq

/-- `BinlogReader.constructBinlogName` (source):
`baseName | uuidSuffix . seq`. -/
def constructBinlogName (originalName : binlogFile) (uuidSuffix : String) : String :=
  originalName.baseName ++ posUUIDSuffixSeparator ++ uuidSuffix ++ baseSeqSeparator ++ originalName.seq

/-- Modelled from the spec: `utils.ParseSuffixForUUID` splits an epoch
sub-directory name `<uuid>.<suffixInt>` at the last dot and parses the
decimal suffix. -/
def ParseSuffixForUUID (uuid : String) : Except GoError (String × Nat) :=
  match splitAtLastDot uuid.toList with
  | none => .error (.notValid s!"UUID {uuid}")
  | some (base, sfx) =>
    if base.isEmpty ∨ sfx.isEmpty ∨ ¬ sfx.all (·.isDigit) then
      .error (.notValid s!"UUID {uuid}")
    else .ok (base.asString, digitsToNat sfx)

/-- Modelled from the spec: `utils.SuffixIntToStr` renders an epoch
suffix as fixed-width (6-digit) decimal, e.g. `2 ↦ "000002"`. -/
def SuffixIntToStr (n : Nat) : String :=
  let s := toString n
  String.mk (List.replicate (6 - s.length) '0') ++ s

/-- Modelled from the spec: `utils.GetUUIDBySuffix` finds the epoch in
the index whose rendered suffix equals the given suffix string, or
returns the empty string. -/
def GetUUIDBySuffix (uuids : List String) (suffix : String) : String :=
  match uuids.find? (fun u =>
      match ParseSuffixForUUID u with
      | .ok p => SuffixIntToStr p.2 == suffix
      | .error _ => false) with
  | some u => u
  | none => ""

/-- Modelled from the spec: `utils.GenFakeRotateEvent` synthesizes a fake
rotation event carrying the given next-log name and log position, with
zero timestamp, zero header log-position (marking it synthetic, as the
reader's rotate handling expects) and the artificial-event flag
(0x0020). -/
def GenFakeRotateEvent (nextLogName : String) (logPos : Nat) (serverID : Nat) : BinlogEvent :=
  { header := { eventType := .ROTATE_EVENT, timestamp := 0, serverID := serverID,
                logPos := 0, flags := 0x0020 },
    event := .rotate nextLogName logPos }

/-! ## The reader environment

The reader's effectful collaborators, as oracles.  `statSize` is
`os.Stat(path).Size()` (`none` = stat error); `readDir` is the sorted
directory listing; `parserEvents`/`parserResult` describe one invocation
of the external event decoder (`r.parser.ParseFile`): the events it
delivers to the callback, in order, and its final error message if any;
`watchSetupErr`/`watchResult` describe one episode of the directory
change watcher of `relaySubDirUpdated` (its internal goroutine and
channels are concurrency and are abstracted into the final result). -/
structure ReaderEnv where
  relayDir : String
  uuids : List String
  statSize : String → Option Int
  readDir : String → Except String (List String)
  parserEvents : List BinlogEvent
  parserResult : Option String
  watchSetupErr : Option GoError
  watchResult : Except GoError String

/-- `BinlogReader.fileSizeUpdated`: 0 if unchanged, 1 if grown, panic if
shrunk (relay files are append-only). -/
def fileSizeUpdated (env : ReaderEnv) (path : String) (latestSize : Int) : Outcome Int :=
  match env.statSize path with
  | none => .err (.other s!"get stat for relay log {path}")
  | some currSize =>
    if currSize = latestSize then .ok 0
    else if currSize > latestSize then .ok 1
    else .panicked s!"relay log file size has changed from {latestSize} to {currSize}"

/-- `BinlogReader.getNextUUID`: scan `uuids[len-2] … uuids[0]` for the
current epoch; return the element after the first hit together with its
rendered suffix (suffix parse errors are ignored in the source, yielding
suffix 0). -/
def getNextUUID (uuids : List String) (uuid : String) : String × String :=
  match (List.range (uuids.length - 1)).reverse.find? (fun i => uuids.getD i "" == uuid) with
  | some i =>
    let nextUUID := uuids.getD (i + 1) ""
    let suffixInt := match ParseSuffixForUUID nextUUID with | .ok p => p.2 | .error _ => 0
    (nextUUID, SuffixIntToStr suffixInt)
  | none => ("", "")

/-- The scan of `BinlogReader.getFirstBinlogName` over a directory
listing: skip the meta file, fail on the first name that is not a valid
binlog filename, return the first valid one. -/
def firstBinlogInFiles (fpath : String) : List String → Except GoError String
  | [] => .error (.notFound s!"binlog files in dir {fpath}")
  | f :: rest =>
    if f = MetaFilename then firstBinlogInFiles fpath rest
    else
      match parseBinlogFile f with
      | .error _ => .error (.notValid s!"binlog file {f}")
      | .ok _ => .ok f

/-- `BinlogReader.getFirstBinlogName`. -/
def getFirstBinlogName (env : ReaderEnv) (uuid : String) : Except GoError String :=
  let fpath := env.relayDir ++ "/" ++ uuid
  match env.readDir fpath with
  | .error m => .error (.other s!"get binlog file for dir {fpath}: {m}")
  | .ok files => firstBinlogInFiles fpath files

/-- The `needSwitch`/`needReParse`/`nextUUID`/`nextBinlogName` results of
`needSwitchSubDir`. -/
structure NeedSwitchResult where
  needSwitch : Bool
  needReParse : Bool
  nextUUID : String
  nextBinlogName : String
deriving DecidableEq, Repr

/-- `BinlogReader.needSwitchSubDir`.  (`len(nextUUID) == 0` is written as
equality with the empty string.) -/
def needSwitchSubDir (env : ReaderEnv) (currentUUID latestFilePath : String)
    (latestFileSize : Int) : Outcome NeedSwitchResult :=
  let nextUUID := (getNextUUID env.uuids currentUUID).1
  if nextUUID = "" then .ok ⟨false, false, "", ""⟩
  else
    match getFirstBinlogName env nextUUID with
    | .error e => .err e
    | .ok nextBinlogName =>
      match fileSizeUpdated env latestFilePath latestFileSize with
      | .err e => .err e
      | .panicked m => .panicked m
      | .ok cmp =>
        if cmp < 0 then .err (.other s!"file size of relay log {latestFilePath} become smaller")
        else if cmp > 0 then .ok ⟨false, true, "", ""⟩
        else .ok ⟨true, false, nextUUID, nextBinlogName⟩

/-- `BinlogReader.relaySubDirUpdated`: after setting up the watcher it
re-checks the latest file's size (covering the race between EOF and
subscription) and otherwise blocks on the watcher goroutine, whose
filtered outcome is the `watchResult` oracle. -/
def relaySubDirUpdated (env : ReaderEnv) (latestFilePath : String)
    (latestFileSize : Int) : Outcome String :=
  match env.watchSetupErr with
  | some e => .err e
  | none =>
    match fileSizeUpdated env latestFilePath latestFileSize with
    | .err e => .err e
    | .panicked m => .panicked m
    | .ok cmp =>
      if cmp < 0 then .err (.other s!"file size of relay log {latestFilePath} become smaller")
      else if cmp > 0 then .ok latestFilePath
      else
        match env.watchResult with
        | .error e => .err e
        | .ok p => .ok p

/-! ## `BinlogReader.parseFile` and its per-event callback -/

/-- The mutable state threaded through `onEventFunc`: the reader's
`latestServerID`, the closure variable `latestPos`, the events sent to
the output stream `s.ch` so far, and whether a Go runtime panic occurred
(nil-pointer / failed type assertion on an event whose body does not
match its header). -/
structure OnEventState where
  latestServerID : Nat
  latestPos : Int
  emitted : List BinlogEvent
  panicked : Bool
deriving DecidableEq, Repr

/-- `onEventFunc` (the closure inside `BinlogReader.parseFile`): skip
relay-writer gap-filling events (flag 0x0040); record the server id;
for rotate events rewrite the next-log name with the current epoch's
suffix and update `latestPos` only for genuine (non-fake) rotates; for
other non-header events update `latestPos`; forward the event. -/
def onEventFunc (uuidSuffix : String) (st : OnEventState) (e : BinlogEvent) : OnEventState :=
  if st.panicked then st
  else if e.header.flags &&& 0x0040 ≠ 0 then st
  else
    let st := { st with latestServerID := e.header.serverID }
    match e.header.eventType with
    | .FORMAT_DESCRIPTION_EVENT =>
      { st with emitted := st.emitted ++ [e] }
    | .ROTATE_EVENT =>
      match e.event with
      | .rotate nextLogName rotPos =>
        match parseBinlogFile nextLogName with
        | .error _ => { st with panicked := true }
        | .ok parsed =>
          let nameWithSuffix := constructBinlogName parsed uuidSuffix
          let e2 : BinlogEvent := { e with event := .rotate nameWithSuffix rotPos }
          let st :=
            if e.header.timestamp ≠ 0 ∧ e.header.logPos ≠ 0 then
              { st with latestPos := (e.header.logPos : Int) }
            else st
          { st with emitted := st.emitted ++ [e2] }
      | _ => { st with panicked := true }
    | _ =>
      { st with latestPos := (e.header.logPos : Int), emitted := st.emitted ++ [e] }

/-- The results of `parseFile` (its error is carried by `Outcome`). -/
structure ParseFileResult where
  needSwitch : Bool
  needReParse : Bool
  latestPos : Int
  nextUUID : String
  nextBinlogName : String
deriving DecidableEq, Repr

/-- Whether `needle` occurs contiguously inside a character list. -/
def containsSeq (needle : List Char) : List Char → Bool
  | [] => needle.isEmpty
  | c :: cs => needle.isPrefixOf (c :: cs) || containsSeq needle cs

/-- `strings.Contains(msg, "err EOF")`. -/
def containsErrEOF (msg : String) : Bool :=
  containsSeq "err EOF".toList msg.toList

/-- The decode phase of `parseFile`: deliver the fake rotate event first
when `firstParse`, then feed the external decoder's events through
`onEventFunc`. -/
def parseFileDecodeState (env : ReaderEnv) (latestServerID : Nat) (relayLogFile : String)
    (offset : Int) (firstParse : Bool) (uuidSuffix : String) : OnEventState :=
  let st0 : OnEventState := ⟨latestServerID, offset, [], false⟩
  let st1 :=
    if firstParse then
      onEventFunc uuidSuffix st0 (GenFakeRotateEvent relayLogFile offset.toNat latestServerID)
    else st0
  env.parserEvents.foldl (onEventFunc uuidSuffix) st1

/-- Source lines 316–344 of `parseFile`: the decision taken after the
decoder finished — continue to the next file, consult
`needSwitchSubDir`, or wait for a directory change. -/
def parseFileTail (env : ReaderEnv) (relayLogFile relayLogDir currentUUID : String)
    (possibleLast : Bool) (latestPos : Int) : Outcome ParseFileResult :=
  if possibleLast = false then .ok ⟨false, false, latestPos, "", ""⟩
  else
    match needSwitchSubDir env currentUUID (relayLogDir ++ "/" ++ relayLogFile) latestPos with
    | .err e => .err e
    | .panicked m => .panicked m
    | .ok nsr =>
      if nsr.needReParse then .ok ⟨false, true, latestPos, "", ""⟩
      else if nsr.needSwitch then .ok ⟨true, false, 0, nsr.nextUUID, nsr.nextBinlogName⟩
      else
        match relaySubDirUpdated env (relayLogDir ++ "/" ++ relayLogFile) latestPos with
        | .err e => .err e
        | .panicked m => .panicked m
        | .ok updatedPath =>
          if updatedPath.endsWith relayLogFile then .ok ⟨false, true, latestPos, "", ""⟩
          else .ok ⟨false, false, latestPos, "", ""⟩

/-- The error handling of `parseFile` around the decoder invocation
(source lines 307–314) followed by `parseFileTail`: an `err EOF` decode
error on a possibly-last file is only logged; any other decode error is
returned. -/
def parseFileVerdict (env : ReaderEnv) (relayLogFile relayLogDir currentUUID : String)
    (possibleLast : Bool) (st : OnEventState) : Outcome ParseFileResult :=
  if st.panicked then .panicked "event callback panicked"
  else
    match env.parserResult with
    | some msg =>
      if possibleLast && containsErrEOF msg then
        parseFileTail env relayLogFile relayLogDir currentUUID possibleLast st.latestPos
      else .err (.other msg)
    | none => parseFileTail env relayLogFile relayLogDir currentUUID possibleLast st.latestPos

/-- `BinlogReader.parseFile`: returns the trace of events sent to the
output stream together with the Go return value. -/
def parseFile (env : ReaderEnv) (latestServerID : Nat) (relayLogFile : String) (offset : Int)
    (relayLogDir : String) (firstParse : Bool) (currentUUID : String) (possibleLast : Bool) :
    List BinlogEvent × Outcome ParseFileResult :=
  match ParseSuffixForUUID currentUUID with
  | .error e => ([], .err e)
  | .ok su =>
    let st := parseFileDecodeState env latestServerID relayLogFile offset firstParse
      (SuffixIntToStr su.2)
    (st.emitted, parseFileVerdict env relayLogFile relayLogDir currentUUID possibleLast st)

/-! ## `BinlogReader.extractPos` -/

/-- `BinlogReader.extractPos`: decode a possibly epoch-suffixed starting
position into (epoch UUID, suffix, real position).  The source ignores
the `parseBinlogFile` error and dereferences the result, so an
unparseable name is a runtime fault (`Outcome.panicked`). -/
def extractPos (uuids : List String) (indexPath : String) (pos : Position) :
    Outcome (String × String × Position) :=
  if uuids.length = 0 then
    .err (.notFound s!"relay sub dir with index file {indexPath}")
  else
    match parseBinlogFile pos.name with
    | .error _ => .panicked "parseBinlogFile error ignored, nil dereference"
    | .ok parsed =>
      let bl := parsed.baseName.toList
      let sepIdx := strIndexOf bl '|'
      match sepIdx with
      | some k =>
        if k > 0 ∧ k + 1 < bl.length then
          let realBaseName := (bl.take k).asString
          let masterUUIDSuffix := (bl.drop (k + 1)).asString
          let uuid := GetUUIDBySuffix uuids masterUUIDSuffix
          if uuid.length > 0 then
            .ok (uuid, masterUUIDSuffix,
                 ⟨constructBinlogFilename realBaseName parsed.seq, pos.pos⟩)
          else .err (.notFound s!"UUID suffix {masterUUIDSuffix}")
        else
          match ParseSuffixForUUID (uuids.getD (uuids.length - 1) "") with
          | .error e => .err e
          | .ok p => .ok (uuids.getD (uuids.length - 1) "", SuffixIntToStr p.2, pos)
      | none =>
        match ParseSuffixForUUID (uuids.getD (uuids.length - 1) "") with
        | .error e => .err e
        | .ok p => .ok (uuids.getD (uuids.length - 1) "", SuffixIntToStr p.2, pos)

/-! ## Concrete fixtures used by counterexamples and witnesses -/

/-- A recorder state at offset 100 of `mysql-bin.000001`. -/
def l0C1 : locationRecorder :=
  ⟨⟨⟨"mysql-bin.000001", 100⟩, none⟩, ⟨⟨"mysql-bin.000001", 100⟩, none⟩,
   ⟨⟨"mysql-bin.000001", 100⟩, none⟩, false⟩

/-- A position-advancing event whose header log-position (50) is smaller
than the current end offset (100). -/
def eC1 : BinlogEvent := ⟨⟨.OTHER_EVENT, 1, 1, 50, 0⟩, .other⟩

/-- A recorder state at offset 10. -/
def l1W : locationRecorder :=
  ⟨⟨⟨"mysql-bin.000001", 10⟩, none⟩, ⟨⟨"mysql-bin.000001", 10⟩, none⟩,
   ⟨⟨"mysql-bin.000001", 10⟩, none⟩, false⟩

/-- A position-advancing event with header log-position 20. -/
def e1W : BinlogEvent := ⟨⟨.OTHER_EVENT, 1, 1, 20, 0⟩, .other⟩

/-- A recorder state whose transaction-end differs from its current end. -/
def l0C2 : locationRecorder :=
  ⟨⟨⟨"mysql-bin.000001", 100⟩, none⟩, ⟨⟨"mysql-bin.000001", 100⟩, none⟩,
   ⟨⟨"mysql-bin.000001", 40⟩, none⟩, false⟩

/-- A `BEGIN` query event carrying the artificial-event flag (0x0020),
hence filtered by `shouldUpdatePos`. -/
def eC2Begin : BinlogEvent := ⟨⟨.QUERY_EVENT, 1, 1, 120, 0x0020⟩, .query "BEGIN" none⟩

/-- A `COMMIT` query event carrying the artificial-event flag (0x0020),
hence filtered by `shouldUpdatePos`. -/
def eC2Commit : BinlogEvent := ⟨⟨.QUERY_EVENT, 1, 1, 140, 0x0020⟩, .query "COMMIT" none⟩

/-- A regular `BEGIN` query event. -/
def eW2Begin : BinlogEvent := ⟨⟨.QUERY_EVENT, 1, 1, 120, 0⟩, .query "BEGIN" none⟩

/-- A regular statement-mode DML query event. -/
def eW2Mid : BinlogEvent := ⟨⟨.QUERY_EVENT, 1, 1, 160, 0⟩, .query "INSERT INTO t VALUES (1)" none⟩

/-- A regular `COMMIT` query event. -/
def eW2Commit : BinlogEvent := ⟨⟨.QUERY_EVENT, 1, 1, 180, 0⟩, .query "COMMIT" (some 9)⟩

/-- A reader environment with two epochs whose second epoch holds one
binlog file, and whose latest relay file currently has size 4. -/
def envW3 : ReaderEnv :=
  { relayDir := "rd", uuids := ["a.000001", "b.000002"],
    statSize := fun p => if p = "rd/a.000001/mysql-bin.000003" then some 4 else none,
    readDir := fun p => if p = "rd/b.000002" then .ok ["relay.meta", "mysql-bin.000001"] else .error "nodir",
    parserEvents := [], parserResult := none,
    watchSetupErr := none, watchResult := .ok "x" }

/-- A one-epoch environment whose decoder delivers no events. -/
def envC4 : ReaderEnv :=
  { relayDir := "rd", uuids := ["a.000001"],
    statSize := fun _ => some 4,
    readDir := fun _ => .ok [],
    parserEvents := [], parserResult := none,
    watchSetupErr := none, watchResult := .ok "x" }

/-- A one-epoch environment whose decoder fails with an end-of-stream
error. -/
def envW6 : ReaderEnv :=
  { relayDir := "rd", uuids := ["a.000001"],
    statSize := fun _ => some 4,
    readDir := fun _ => .ok [],
    parserEvents := [], parserResult := some "parse err EOF at 4",
    watchSetupErr := none, watchResult := .ok "x" }

/-- A two-epoch environment used to exercise the non-last-file path. -/
def envW10 : ReaderEnv :=
  { relayDir := "rd", uuids := ["a.000001", "b.000002"],
    statSize := fun _ => some 4,
    readDir := fun p => if p = "rd/b.000002" then .ok ["mysql-bin.000001"] else .error "nodir",
    parserEvents := [], parserResult := none,
    watchSetupErr := none, watchResult := .ok "x" }

/-- An environment whose file size oracle reports 5 for every path. -/
def envW7 : ReaderEnv :=
  { relayDir := "rd", uuids := ["a.000001"],
    statSize := fun _ => some 5,
    readDir := fun _ => .ok [],
    parserEvents := [], parserResult := none,
    watchSetupErr := none, watchResult := .ok "x" }

/-! ## Helper lemmas about `locationRecorder.update` -/

/-- An event filtered by `shouldUpdatePos` leaves the current end
location untouched. -/
theorem update_curEnd_of_skip (l : locationRecorder) (e : BinlogEvent)
    (hs : shouldUpdatePos e = false) : (update l e).curEndLocation = l.curEndLocation := by
  unfold update
  simp [hs]

/-- A position-advancing non-rotation event sets the end offset to the
header's log position and keeps the file name. -/
theorem update_curEnd_pos_of_advance (l : locationRecorder) (e : BinlogEvent)
    (hs : shouldUpdatePos e = true) (hr : ∀ n p, e.event ≠ EventBody.rotate n p) :
    (update l e).curEndLocation.position =
      ⟨l.curEndLocation.position.name, e.header.logPos⟩ := by
  unfold update
  cases he : e.event with
  | rotate n p => exact absurd he (hr n p)
  | xid g => simp [hs, he, saveTxnEndLocation, setCurrentGTID]
  | query q g =>
    by_cases hb : trimSpace q = "BEGIN" <;> by_cases hc : trimSpace q = "COMMIT" <;>
      simp [hs, he, hb, hc, saveTxnEndLocation, setCurrentGTID] <;>
      split <;> simp
  | mariadbGTID d => cases d <;> simp [hs, he]
  | other => simp [hs, he]

/-! ## Claims about `locationRecorder` -/

/-- Claim C8: `reset(loc)` sets `curStartLocation`, `curEndLocation` and
`txnEndLocation` all to `loc`, and leaves the `inDML` flag unchanged. -/
theorem c8_reset_frame (l : locationRecorder) (loc : Location) :
    (reset l loc).curStartLocation = loc ∧ (reset l loc).curEndLocation = loc ∧
    (reset l loc).txnEndLocation = loc ∧ (reset l loc).inDML = l.inDML :=
  ⟨rfl, rfl, rfl, rfl⟩

/-- Claim C1, counterexample: an event whose header log-position (50) is
smaller than the current end offset (100) makes `update` decrease
`curEndLocation.Position.Pos` while the file name stays unchanged, so
the offset is not monotone over arbitrary event sequences. -/
theorem c1_counterexample :
    (update l0C1 eC1).curEndLocation.position.name = l0C1.curEndLocation.position.name ∧
    (update l0C1 eC1).curEndLocation.position.pos < l0C1.curEndLocation.position.pos := by
  decide

/-- Claim C1 (amended): provided every position-advancing non-rotation
event carries a header log-position at least the current end offset (as
in a well-formed binlog stream), one `update` step never decreases
`curEndLocation.Position.Pos` while the file name is unchanged; and the
file name changes only on a rotation event, in which case the offset is
set to the file-header length. -/
theorem c1_offset_monotone (l : locationRecorder) (e : BinlogEvent)
    (h : shouldUpdatePos e = true → (∀ n p, e.event ≠ EventBody.rotate n p) →
         l.curEndLocation.position.pos ≤ e.header.logPos) :
    ((update l e).curEndLocation.position.name = l.curEndLocation.position.name →
      l.curEndLocation.position.pos ≤ (update l e).curEndLocation.position.pos) ∧
    ((update l e).curEndLocation.position.name ≠ l.curEndLocation.position.name →
      (∃ n p, e.event = EventBody.rotate n p) ∧
      (update l e).curEndLocation.position.pos = FileHeaderLen) := by
  cases hs : shouldUpdatePos e with
  | false =>
    rw [update_curEnd_of_skip l e hs]
    exact ⟨fun _ => le_refl _, fun hne => absurd rfl hne⟩
  | true =>
    cases he : e.event with
    | rotate n p =>
      by_cases hn : l.curEndLocation.position.name = n
      · have hsame : (update l e).curEndLocation = l.curEndLocation := by
          unfold update
          simp [hs, he, hn]
        rw [hsame]
        exact ⟨fun _ => le_refl _, fun hne => absurd rfl hne⟩
      · have hrot : (update l e).curEndLocation.position =
            ⟨n, FileHeaderLen⟩ := by
          unfold update
          simp [hs, he, hn, saveTxnEndLocation]
        rw [hrot]
        exact ⟨fun hname => absurd hname.symm hn,
               fun _ => ⟨⟨n, p, by first | exact he | rfl⟩, rfl⟩⟩
    | xid g =>
      have hp := update_curEnd_pos_of_advance l e hs (by rw [he]; intro n p hc; cases hc)
      rw [hp]
      exact ⟨fun _ => h hs (by rw [he]; intro n p hc; cases hc), fun hne => absurd rfl hne⟩
    | query q g =>
      have hp := update_curEnd_pos_of_advance l e hs (by rw [he]; intro n p hc; cases hc)
      rw [hp]
      exact ⟨fun _ => h hs (by rw [he]; intro n p hc; cases hc), fun hne => absurd rfl hne⟩
    | mariadbGTID d =>
      have hp := update_curEnd_pos_of_advance l e hs (by rw [he]; intro n p hc; cases hc)
      rw [hp]
      exact ⟨fun _ => h hs (by rw [he]; intro n p hc; cases hc), fun hne => absurd rfl hne⟩
    | other =>
      have hp := update_curEnd_pos_of_advance l e hs (by rw [he]; intro n p hc; cases hc)
      rw [hp]
      exact ⟨fun _ => h hs (by rw [he]; intro n p hc; cases hc), fun hne => absurd rfl hne⟩

/-- Claim C1, witness: the amended monotonicity theorem applied to a
concrete advancing event (offset 10, log-position 20). -/
theorem c1_offset_monotone_witness :
    (update l1W e1W).curEndLocation.position.name = l1W.curEndLocation.position.name ∧
    l1W.curEndLocation.position.pos ≤ (update l1W e1W).curEndLocation.position.pos :=
  ⟨by decide, (c1_offset_monotone l1W e1W (fun _ _ => by decide)).1 (by decide)⟩

/-- An event filtered by `shouldUpdatePos` leaves the transaction end
and the DML flag untouched. -/
theorem update_txnEnd_of_skip (l : locationRecorder) (e : BinlogEvent)
    (hs : shouldUpdatePos e = false) :
    (update l e).txnEndLocation = l.txnEndLocation ∧ (update l e).inDML = l.inDML := by
  unfold update
  simp [hs]

/-- A position-advancing `BEGIN` query event sets the DML flag and
returns before touching the transaction end. -/
theorem update_begin_step (l : locationRecorder) (e : BinlogEvent) (q : String) (g : Option Nat)
    (he : e.event = EventBody.query q g) (hq : trimSpace q = "BEGIN")
    (hs : shouldUpdatePos e = true) :
    (update l e).txnEndLocation = l.txnEndLocation ∧ (update l e).inDML = true := by
  unfold update
  simp [hs, he, hq]

/-- While the DML flag is set, any query event whose trimmed text is not
`COMMIT` keeps the flag set and leaves the transaction end untouched. -/
theorem update_dml_query_step (l : locationRecorder) (e : BinlogEvent) (q : String)
    (g : Option Nat) (hd : l.inDML = true) (he : e.event = EventBody.query q g)
    (hq : trimSpace q ≠ "COMMIT") :
    (update l e).txnEndLocation = l.txnEndLocation ∧ (update l e).inDML = true := by
  cases hs : shouldUpdatePos e with
  | false =>
    obtain ⟨h1, h2⟩ := update_txnEnd_of_skip l e hs
    exact ⟨h1, h2.trans hd⟩
  | true =>
    by_cases hb : trimSpace q = "BEGIN"
    · exact update_begin_step l e q g he hb hs
    · unfold update
      simp [hs, he, hb, hq, hd]

/-- A position-advancing `COMMIT` query event snapshots the transaction
end from the current end. -/
theorem update_commit_step (l : locationRecorder) (e : BinlogEvent) (q : String)
    (g : Option Nat) (he : e.event = EventBody.query q g) (hq : trimSpace q = "COMMIT")
    (hs : shouldUpdatePos e = true) :
    (update l e).txnEndLocation = (update l e).curEndLocation := by
  unfold update
  have hqb : trimSpace q ≠ "BEGIN" := by rw [hq]; decide
  simp [hs, he, hq, hqb, saveTxnEndLocation, setCurrentGTID]

/-- Feeding only non-`COMMIT` query events to a recorder whose DML flag
is set leaves the transaction end untouched and the flag set. -/
theorem updates_dml_frame (mid : List BinlogEvent) :
    ∀ l : locationRecorder, l.inDML = true →
    (∀ e ∈ mid, ∃ q g, e.event = EventBody.query q g ∧ trimSpace q ≠ "COMMIT") →
    (updates l mid).txnEndLocation = l.txnEndLocation ∧ (updates l mid).inDML = true := by
  induction mid with
  | nil => exact fun l hd _ => ⟨rfl, hd⟩
  | cons e rest ih =>
    intro l hd hall
    obtain ⟨q, g, he, hq⟩ := hall e (List.mem_cons_self e rest)
    obtain ⟨h1, h2⟩ := update_dml_query_step l e q g hd he hq
    obtain ⟨h3, h4⟩ := ih (update l e) h2 (fun e2 he2 => hall e2 (List.mem_cons_of_mem e he2))
    refine ⟨?_, h4⟩
    calc (updates l (e :: rest)).txnEndLocation
        = (updates (update l e) rest).txnEndLocation := rfl
      _ = (update l e).txnEndLocation := h3
      _ = l.txnEndLocation := h1

/-- Claim C2, counterexample: with the artificial-event flag set on the
`BEGIN` and `COMMIT` query events (so `shouldUpdatePos` filters them),
the final `COMMIT` does not make `txnEndLocation` a clone of
`curEndLocation`, refuting the claim over arbitrary query events. -/
theorem c2_counterexample :
    (eC2Begin.event = EventBody.query "BEGIN" none ∧ trimSpace "BEGIN" = "BEGIN") ∧
    (eC2Commit.event = EventBody.query "COMMIT" none ∧ trimSpace "COMMIT" = "COMMIT") ∧
    (updates l0C2 [eC2Begin, eC2Commit]).txnEndLocation ≠
      (updates l0C2 [eC2Begin, eC2Commit]).curEndLocation := by
  decide

/-- Claim C2 (amended): provided the `BEGIN` and the final `COMMIT`
query events are position-advancing (not filtered by `shouldUpdatePos`,
i.e. not artificial), a `BEGIN` query event followed by arbitrary
non-`COMMIT` query events followed by a `COMMIT` query event leaves
`txnEndLocation` unchanged at every step except the final `COMMIT`, at
which `txnEndLocation` becomes a clone of `curEndLocation`. -/
theorem c2_txn_boundary (l : locationRecorder) (eb ec : BinlogEvent) (mid : List BinlogEvent)
    (qb qc : String) (gb gc : Option Nat)
    (hbe : eb.event = EventBody.query qb gb) (hbt : trimSpace qb = "BEGIN")
    (hbs : shouldUpdatePos eb = true)
    (hmid : ∀ e ∈ mid, ∃ q g, e.event = EventBody.query q g ∧ trimSpace q ≠ "COMMIT")
    (hce : ec.event = EventBody.query qc gc) (hct : trimSpace qc = "COMMIT")
    (hcs : shouldUpdatePos ec = true) :
    (∀ pre, pre <+: (eb :: mid) → (updates l pre).txnEndLocation = l.txnEndLocation) ∧
    (updates l (eb :: (mid ++ [ec]))).txnEndLocation =
      (updates l (eb :: (mid ++ [ec]))).curEndLocation := by
  obtain ⟨hb1, hb2⟩ := update_begin_step l eb qb gb hbe hbt hbs
  constructor
  · intro pre hpre
    obtain ⟨t, ht⟩ := hpre
    cases pre with
    | nil => rfl
    | cons p ps =>
      rw [List.cons_append] at ht
      have hp : p = eb := (List.cons.injEq _ _ _ _ ▸ ht).1
      have ht2 : ps ++ t = mid := (List.cons.injEq _ _ _ _ ▸ ht).2
      subst hp
      have hsub : ∀ e ∈ ps, ∃ q g, e.event = EventBody.query q g ∧ trimSpace q ≠ "COMMIT" :=
        fun e heps => hmid e (ht2 ▸ List.mem_append_left t heps)
      have hframe := updates_dml_frame ps (update l p) hb2 hsub
      calc (updates l (p :: ps)).txnEndLocation
          = (updates (update l p) ps).txnEndLocation := rfl
        _ = (update l p).txnEndLocation := hframe.1
        _ = l.txnEndLocation := hb1
  · have hframe := updates_dml_frame mid (update l eb) hb2 hmid
    have hstep : updates l (eb :: (mid ++ [ec])) = update (updates (update l eb) mid) ec := by
      show (mid ++ [ec]).foldl update (update l eb) = _
      rw [List.foldl_append]
      rfl
    rw [hstep]
    exact update_commit_step _ ec qc gc hce hct hcs

/-- Claim C2, witness: a concrete `BEGIN`, statement-mode `INSERT`,
`COMMIT` run through the amended theorem. -/
theorem c2_txn_boundary_witness :
    (shouldUpdatePos eW2Begin = true ∧ shouldUpdatePos eW2Commit = true) ∧
    (∀ pre, pre <+: [eW2Begin, eW2Mid] → (updates l0C2 pre).txnEndLocation = l0C2.txnEndLocation) ∧
    (updates l0C2 [eW2Begin, eW2Mid, eW2Commit]).txnEndLocation =
      (updates l0C2 [eW2Begin, eW2Mid, eW2Commit]).curEndLocation := by
  have h := c2_txn_boundary l0C2 eW2Begin eW2Commit [eW2Mid]
    "BEGIN" "COMMIT" none (some 9) rfl (by decide) (by decide)
    (fun e he => by
      rw [List.mem_singleton] at he
      subst he
      exact ⟨"INSERT INTO t VALUES (1)", none, rfl, by decide⟩)
    rfl (by decide) (by decide)
  exact ⟨⟨by decide, by decide⟩, h.1, h.2⟩

/-! ## Claims about the relay-log reader -/

/-- Claim C7: `fileSizeUpdated` is a strict three-way function — equal
sizes return 0, growth returns 1, and shrinkage panics rather than
returning normally. -/
theorem c7_file_size_three_way (env : ReaderEnv) (path : String) (latestSize currSize : Int)
    (h : env.statSize path = some currSize) :
    (currSize = latestSize → fileSizeUpdated env path latestSize = .ok 0) ∧
    (currSize > latestSize → fileSizeUpdated env path latestSize = .ok 1) ∧
    (currSize < latestSize →
      fileSizeUpdated env path latestSize =
        .panicked s!"relay log file size has changed from {latestSize} to {currSize}") := by
  refine ⟨fun he => ?_, fun hg => ?_, fun hl => ?_⟩ <;> simp only [fileSizeUpdated, h]
  · rw [if_pos he]
  · rw [if_neg (by omega), if_pos hg]
  · rw [if_neg (by omega), if_neg (by omega)]

/-- Claim C7, witness: the three-way theorem applied to a file of
current size 5 against last-known sizes 5, 3 and 9. -/
theorem c7_file_size_three_way_witness :
    fileSizeUpdated envW7 "relay.000001" 5 = .ok 0 ∧
    fileSizeUpdated envW7 "relay.000001" 3 = .ok 1 ∧
    fileSizeUpdated envW7 "relay.000001" 9 =
      .panicked "relay log file size has changed from 9 to 5" :=
  ⟨(c7_file_size_three_way envW7 "relay.000001" 5 5 rfl).1 rfl,
   (c7_file_size_three_way envW7 "relay.000001" 3 5 rfl).2.1 (by omega),
   (c7_file_size_three_way envW7 "relay.000001" 9 5 rfl).2.2 (by omega)⟩

/-- Claim C9: an event with `LOG_EVENT_RELAY_LOG_F` (0x0040) set leaves
the callback state unchanged — nothing is forwarded, no server id is
recorded, the tracked position does not advance. -/
theorem c9_relay_flag_invisible (uuidSuffix : String) (st : OnEventState) (e : BinlogEvent)
    (h : e.header.flags &&& 0x0040 ≠ 0) : onEventFunc uuidSuffix st e = st := by
  unfold onEventFunc
  simp [h]

/-- Claim C9, witness: a concrete relay-writer gap-filling event is
invisible to the callback. -/
theorem c9_relay_flag_invisible_witness :
    ((⟨⟨.OTHER_EVENT, 1, 3, 77, 0x0040⟩, .other⟩ : BinlogEvent).header.flags &&& 0x0040 ≠ 0) ∧
    onEventFunc "000001" ⟨0, 4, [], false⟩ ⟨⟨.OTHER_EVENT, 1, 3, 77, 0x0040⟩, .other⟩ =
      ⟨0, 4, [], false⟩ :=
  ⟨by decide, c9_relay_flag_invisible "000001" ⟨0, 4, [], false⟩ _ (by decide)⟩

/-- Evaluating `fileSizeUpdated` once the stat oracle answer is known. -/
theorem fileSizeUpdated_of_stat (env : ReaderEnv) (path : String) (latestSize currSize : Int)
    (h : env.statSize path = some currSize) :
    fileSizeUpdated env path latestSize =
      if currSize = latestSize then .ok 0
      else if currSize > latestSize then .ok 1
      else .panicked s!"relay log file size has changed from {latestSize} to {currSize}" := by
  simp only [fileSizeUpdated, h]

/-- Claim C3: `needSwitchSubDir` reports no switch and no re-parse when
no epoch follows the current one; with a next epoch (whose first binlog
name resolves) it reports re-parse (not switch) on growth, switch with
the next epoch's UUID and first binlog name on an unchanged size, and a
shrunken file is never reported as a normal outcome. -/
theorem c3_need_switch_decision (env : ReaderEnv) (currentUUID latestFilePath : String)
    (latestFileSize : Int) :
    ((getNextUUID env.uuids currentUUID).1 = "" →
      needSwitchSubDir env currentUUID latestFilePath latestFileSize =
        .ok ⟨false, false, "", ""⟩) ∧
    (∀ nextUUID firstName currSize,
      (getNextUUID env.uuids currentUUID).1 = nextUUID → nextUUID ≠ "" →
      getFirstBinlogName env nextUUID = .ok firstName →
      env.statSize latestFilePath = some currSize →
      ((currSize > latestFileSize →
         needSwitchSubDir env currentUUID latestFilePath latestFileSize =
           .ok ⟨false, true, "", ""⟩) ∧
       (currSize = latestFileSize →
         needSwitchSubDir env currentUUID latestFilePath latestFileSize =
           .ok ⟨true, false, nextUUID, firstName⟩) ∧
       (currSize < latestFileSize →
         ∀ res, needSwitchSubDir env currentUUID latestFilePath latestFileSize ≠ .ok res))) := by
  constructor
  · intro h
    simp [needSwitchSubDir, h]
  · intro nextUUID firstName currSize h1 h2 h3 h4
    have hfs := fileSizeUpdated_of_stat env latestFilePath latestFileSize currSize h4
    refine ⟨fun hg => ?_, fun heq => ?_, fun hl => ?_⟩ <;>
      simp only [needSwitchSubDir, h1, if_neg h2, h3, hfs]
    · rw [if_neg (by omega), if_pos hg]
      norm_num
    · rw [if_pos heq]
      norm_num
    · rw [if_neg (by omega), if_neg (by omega)]
      intro res
      simp

/-- Claim C3, witness: the decision theorem applied to a two-epoch
environment whose next epoch holds `mysql-bin.000001`, at all three size
relations, plus the no-next-epoch case. -/
theorem c3_need_switch_decision_witness :
    needSwitchSubDir envW3 "b.000002" "rd/a.000001/mysql-bin.000003" 4 =
      .ok ⟨false, false, "", ""⟩ ∧
    needSwitchSubDir envW3 "a.000001" "rd/a.000001/mysql-bin.000003" 3 =
      .ok ⟨false, true, "", ""⟩ ∧
    needSwitchSubDir envW3 "a.000001" "rd/a.000001/mysql-bin.000003" 4 =
      .ok ⟨true, false, "b.000002", "mysql-bin.000001"⟩ ∧
    ∀ res, needSwitchSubDir envW3 "a.000001" "rd/a.000001/mysql-bin.000003" 9 ≠ .ok res :=
  ⟨(c3_need_switch_decision envW3 "b.000002" "rd/a.000001/mysql-bin.000003" 4).1 (by decide),
   ((c3_need_switch_decision envW3 "a.000001" "rd/a.000001/mysql-bin.000003" 3).2
      "b.000002" "mysql-bin.000001" 4 (by decide) (by decide) rfl rfl).1 (by omega),
   ((c3_need_switch_decision envW3 "a.000001" "rd/a.000001/mysql-bin.000003" 4).2
      "b.000002" "mysql-bin.000001" 4 (by decide) (by decide) rfl rfl).2.1 rfl,
   ((c3_need_switch_decision envW3 "a.000001" "rd/a.000001/mysql-bin.000003" 9).2
      "b.000002" "mysql-bin.000001" 4 (by decide) (by decide) rfl rfl).2.2 (by omega)⟩

/-- `strIndexOf` finds nothing when the character does not occur. -/
theorem strIndexOf_eq_none (cs : List Char) (c : Char) (h : c ∉ cs) :
    strIndexOf cs c = none := by
  induction cs with
  | nil => rfl
  | cons x xs ih =>
    rw [List.mem_cons, not_or] at h
    unfold strIndexOf
    rw [if_neg (fun hx => h.1 hx.symm), ih h.2]
    rfl

/-- Claim C5: with an empty UUID index `extractPos` fails with a
not-found error; for a well-formed starting name carrying no epoch
suffix it binds to the last epoch of the index and returns the position
unmodified. -/
theorem c5_extract_pos (uuids : List String) (indexPath : String) (pos : Position) :
    (uuids = [] → ∃ msg, extractPos uuids indexPath pos = .err (.notFound msg)) ∧
    (∀ parsed base sfx,
      uuids ≠ [] →
      parseBinlogFile pos.name = .ok parsed →
      '|' ∉ parsed.baseName.toList →
      ParseSuffixForUUID (uuids.getD (uuids.length - 1) "") = .ok (base, sfx) →
      extractPos uuids indexPath pos =
        .ok (uuids.getD (uuids.length - 1) "", SuffixIntToStr sfx, pos)) := by
  constructor
  · intro h
    subst h
    exact ⟨_, rfl⟩
  · intro parsed base sfx hne hparse hnosep hsfx
    have hlen : ¬ uuids.length = 0 := fun h0 => hne (List.length_eq_zero.mp h0)
    simp only [extractPos, hparse, if_neg hlen,
      strIndexOf_eq_none parsed.baseName.toList '|' hnosep, hsfx]

/-- Claim C5, witness: a suffix-less starting position against a
two-epoch index binds to the last epoch with the position unchanged, and
the empty index fails with not-found. -/
theorem c5_extract_pos_witness :
    (∃ msg, extractPos [] "idx" ⟨"mysql-bin.000007", 44⟩ = .err (.notFound msg)) ∧
    extractPos ["a.000001", "b.000002"] "idx" ⟨"mysql-bin.000007", 44⟩ =
      .ok ("b.000002", "000002", ⟨"mysql-bin.000007", 44⟩) :=
  ⟨(c5_extract_pos [] "idx" ⟨"mysql-bin.000007", 44⟩).1 rfl,
   (c5_extract_pos ["a.000001", "b.000002"] "idx" ⟨"mysql-bin.000007", 44⟩).2
     ⟨"mysql-bin", "000007"⟩ "b" 2 (by decide) rfl (by decide) rfl⟩

/-- One callback step only ever appends to the emitted trace. -/
theorem onEventFunc_emitted_mono (sfx : String) (st : OnEventState) (e : BinlogEvent) :
    ∃ t, (onEventFunc sfx st e).emitted = st.emitted ++ t := by
  unfold onEventFunc
  repeat' split
  all_goals first
    | exact ⟨_, rfl⟩
    | exact ⟨[], by simp⟩

/-- A whole decoder run only ever appends to the emitted trace. -/
theorem foldl_emitted_mono (sfx : String) (es : List BinlogEvent) :
    ∀ st : OnEventState, ∃ t, (es.foldl (onEventFunc sfx) st).emitted = st.emitted ++ t := by
  induction es with
  | nil => exact fun st => ⟨[], by simp⟩
  | cons e rest ih =>
    intro st
    obtain ⟨t1, h1⟩ := onEventFunc_emitted_mono sfx st e
    obtain ⟨t2, h2⟩ := ih (onEventFunc sfx st e)
    exact ⟨t1 ++ t2, by rw [List.foldl_cons, h2, h1, List.append_assoc]⟩

/-- Claim C4, counterexample: a first parse starting at offset 194
delivers a synthesized rotation event carrying offset 194, not the
file-header length 4, so the fake rotation's carried offset is not
always the header length. -/
theorem c4_counterexample :
    (parseFile envC4 0 "mysql-bin.000003" 194 "rd/a.000001" true "a.000001" false).1.head? =
      some ⟨⟨.ROTATE_EVENT, 0, 0, 0, 0x0020⟩, .rotate "mysql-bin|000001.000003" 194⟩ ∧
    (194 : Nat) ≠ FileHeaderLen := by
  decide

/-- Claim C4 (amended): on the first parse of a file, the first event
delivered to the stream is the synthesized rotation event naming the
current file rewritten with the current epoch's suffix and carrying the
offset at which parsing starts (which is the header length 4 for every
file after the first of a directory, but in general the caller-supplied
start offset). -/
theorem c4_fake_rotate_first (env : ReaderEnv) (latestServerID : Nat) (relayLogFile : String)
    (offset : Int) (relayLogDir currentUUID : String) (possibleLast : Bool)
    (u : String) (n : Nat) (pf : binlogFile)
    (h1 : ParseSuffixForUUID currentUUID = .ok (u, n))
    (h2 : parseBinlogFile relayLogFile = .ok pf) :
    (parseFile env latestServerID relayLogFile offset relayLogDir true currentUUID
        possibleLast).1.head? =
      some ⟨⟨.ROTATE_EVENT, 0, latestServerID, 0, 0x0020⟩,
            .rotate (constructBinlogName pf (SuffixIntToStr n)) offset.toNat⟩ := by
  have hst1 : onEventFunc (SuffixIntToStr n) ⟨latestServerID, offset, [], false⟩
      (GenFakeRotateEvent relayLogFile offset.toNat latestServerID) =
      ⟨latestServerID, offset,
       [⟨⟨.ROTATE_EVENT, 0, latestServerID, 0, 0x0020⟩,
         .rotate (constructBinlogName pf (SuffixIntToStr n)) offset.toNat⟩], false⟩ := by
    unfold onEventFunc GenFakeRotateEvent
    simp [h2, show (32 : Nat) &&& 64 = 0 by decide]
  obtain ⟨t, hm⟩ := foldl_emitted_mono (SuffixIntToStr n) env.parserEvents
    (onEventFunc (SuffixIntToStr n) ⟨latestServerID, offset, [], false⟩
      (GenFakeRotateEvent relayLogFile offset.toNat latestServerID))
  have hp : (parseFile env latestServerID relayLogFile offset relayLogDir true currentUUID
        possibleLast).1.head? =
      (parseFileDecodeState env latestServerID relayLogFile offset true
        (SuffixIntToStr n)).emitted.head? := by
    unfold parseFile
    rw [h1]
  have hm2 : (parseFileDecodeState env latestServerID relayLogFile offset true
        (SuffixIntToStr n)).emitted =
      (onEventFunc (SuffixIntToStr n) ⟨latestServerID, offset, [], false⟩
        (GenFakeRotateEvent relayLogFile offset.toNat latestServerID)).emitted ++ t := hm
  rw [hst1] at hm2
  rw [hp, hm2]
  rfl

/-- Claim C4, witness: starting the reader on `mysql-bin.000003` in
epoch `a.000001` delivers, first, a synthesized rotation event naming
`mysql-bin|000001.000003`. -/
theorem c4_fake_rotate_first_witness :
    (parseFile envC4 7 "mysql-bin.000003" 4 "rd/a.000001" true "a.000001" true).1.head? =
      some ⟨⟨.ROTATE_EVENT, 0, 7, 0, 0x0020⟩, .rotate "mysql-bin|000001.000003" 4⟩ :=
  c4_fake_rotate_first envC4 7 "mysql-bin.000003" 4 "rd/a.000001" "a.000001" true
    "a" 1 ⟨"mysql-bin", "000003"⟩ rfl rfl

/-- Claim C6: an `err EOF` decode error on a possibly-last file is fully
ignored — `parseFile` behaves exactly as if the decoder had succeeded;
any other decode error (or an EOF error on a non-last file) is returned
as the decode error, provided the callback did not abort. -/
theorem c6_decode_error_policy (env : ReaderEnv) (latestServerID : Nat) (relayLogFile : String)
    (offset : Int) (relayLogDir currentUUID : String) (firstParse possibleLast : Bool)
    (msg : String) (h : env.parserResult = some msg) :
    (possibleLast = true → containsErrEOF msg = true →
      parseFile env latestServerID relayLogFile offset relayLogDir firstParse currentUUID
        possibleLast =
      parseFile { env with parserResult := none } latestServerID relayLogFile offset relayLogDir
        firstParse currentUUID possibleLast) ∧
    (∀ su : String × Nat, ParseSuffixForUUID currentUUID = Except.ok su →
      (parseFileDecodeState env latestServerID relayLogFile offset firstParse
        (SuffixIntToStr su.2)).panicked = false →
      (possibleLast = false ∨ containsErrEOF msg = false) →
      (parseFile env latestServerID relayLogFile offset relayLogDir firstParse currentUUID
        possibleLast).2 = .err (.other msg)) := by
  constructor
  · intro hpl heof
    subst hpl
    cases hsu : ParseSuffixForUUID currentUUID with
    | error e => simp only [parseFile, hsu]
    | ok su =>
      simp only [parseFile, hsu, parseFileVerdict, h, heof, Bool.true_and, if_true]
      rfl
  · intro su hsu hpan hcond
    have hfalse : (possibleLast && containsErrEOF msg) = false := by
      cases hcond with
      | inl h1 => rw [h1]; rfl
      | inr h2 => rw [h2, Bool.and_false]
    simp only [parseFile, hsu, parseFileVerdict, hpan, h, hfalse, Bool.false_eq_true,
      if_false]

/-- Claim C6, witness: with a decoder failing with `parse err EOF at 4`,
a possibly-last parse equals the error-free parse, and a non-last parse
returns that error. -/
theorem c6_decode_error_policy_witness :
    parseFile envW6 0 "mysql-bin.000003" 4 "rd/a.000001" true "a.000001" true =
      parseFile { envW6 with parserResult := none } 0 "mysql-bin.000003" 4 "rd/a.000001" true
        "a.000001" true ∧
    (parseFile envW6 0 "mysql-bin.000003" 4 "rd/a.000001" true "a.000001" false).2 =
      .err (.other "parse err EOF at 4") :=
  ⟨(c6_decode_error_policy envW6 0 "mysql-bin.000003" 4 "rd/a.000001" "a.000001" true true
      "parse err EOF at 4" rfl).1 rfl rfl,
   (c6_decode_error_policy envW6 0 "mysql-bin.000003" 4 "rd/a.000001" "a.000001" true false
      "parse err EOF at 4" rfl).2 ("a", 1) rfl rfl (Or.inl rfl)⟩

/-- A normal return of `parseFileTail` never has switch and re-parse
both set, switches only on a possibly-last file, and on a non-last file
reports neither. -/
theorem parseFileTail_ok_inv (env : ReaderEnv) (relayLogFile relayLogDir currentUUID : String)
    (possibleLast : Bool) (latestPos : Int) (res : ParseFileResult)
    (h : parseFileTail env relayLogFile relayLogDir currentUUID possibleLast latestPos =
      .ok res) :
    (res.needSwitch = false ∨ res.needReParse = false) ∧
    (res.needSwitch = true → possibleLast = true) ∧
    (possibleLast = false → res.needSwitch = false ∧ res.needReParse = false) := by
  unfold parseFileTail at h
  split at h
  · cases h
    simp
  · rename_i hpl
    have hpl2 : possibleLast = true := by
      cases possibleLast
      exacts [absurd rfl hpl, rfl]
    split at h
    · simp at h
    · simp at h
    · split at h
      · cases h
        simp [hpl2]
      · split at h
        · cases h
          simp [hpl2]
        · split at h
          · simp at h
          · simp at h
          · split at h
            · cases h
              simp [hpl2]
            · cases h
              simp [hpl2]

/-- A normal return of `parseFileVerdict` comes from `parseFileTail`. -/
theorem parseFileVerdict_ok_inv (env : ReaderEnv) (relayLogFile relayLogDir currentUUID : String)
    (possibleLast : Bool) (st : OnEventState) (res : ParseFileResult)
    (h : parseFileVerdict env relayLogFile relayLogDir currentUUID possibleLast st = .ok res) :
    parseFileTail env relayLogFile relayLogDir currentUUID possibleLast st.latestPos =
      .ok res := by
  unfold parseFileVerdict at h
  split at h
  · simp at h
  · split at h
    · split at h
      · exact h
      · simp at h
    · exact h

/-- Claim C10: a successful `parseFile` never reports switch and
re-parse together; it can report switch only for a possibly-last file;
and for a non-last file it reports neither and is independent of the
oracles `needSwitchSubDir` and the change watcher consult (UUID index,
stat, directory listing, watcher). -/
theorem c10_switch_reparse_exclusive (env : ReaderEnv) (latestServerID : Nat)
    (relayLogFile : String) (offset : Int) (relayLogDir currentUUID : String)
    (firstParse possibleLast : Bool) :
    (∀ res, (parseFile env latestServerID relayLogFile offset relayLogDir firstParse
        currentUUID possibleLast).2 = .ok res →
      ¬(res.needSwitch = true ∧ res.needReParse = true) ∧
      (res.needSwitch = true → possibleLast = true)) ∧
    (possibleLast = false →
      (∀ res, (parseFile env latestServerID relayLogFile offset relayLogDir firstParse
          currentUUID possibleLast).2 = .ok res →
        res.needSwitch = false ∧ res.needReParse = false) ∧
      (∀ uuids2 statSize2 readDir2 wse2 wr2,
        parseFile env latestServerID relayLogFile offset relayLogDir firstParse currentUUID
          possibleLast =
        parseFile
          { env with
            uuids := uuids2, statSize := statSize2, readDir := readDir2,
            watchSetupErr := wse2, watchResult := wr2 }
          latestServerID relayLogFile offset relayLogDir firstParse currentUUID
          possibleLast)) := by
  constructor
  · intro res h
    cases hsu : ParseSuffixForUUID currentUUID with
    | error e =>
      simp only [parseFile, hsu] at h
      cases h
    | ok su =>
      simp only [parseFile, hsu] at h
      have ht := parseFileVerdict_ok_inv env relayLogFile relayLogDir currentUUID
        possibleLast _ res h
      have hi := parseFileTail_ok_inv env relayLogFile relayLogDir currentUUID
        possibleLast _ res ht
      refine ⟨fun hc => ?_, hi.2.1⟩
      rcases hi.1 with h1 | h1
      · rw [hc.1] at h1; cases h1
      · rw [hc.2] at h1; cases h1
  · intro hpl
    subst hpl
    constructor
    · intro res h
      cases hsu : ParseSuffixForUUID currentUUID with
      | error e =>
        simp only [parseFile, hsu] at h
        cases h
      | ok su =>
        simp only [parseFile, hsu] at h
        have ht := parseFileVerdict_ok_inv env relayLogFile relayLogDir currentUUID
          false _ res h
        have hi := parseFileTail_ok_inv env relayLogFile relayLogDir currentUUID
          false _ res ht
        exact hi.2.2 rfl
    · intro uuids2 statSize2 readDir2 wse2 wr2
      rfl

/-- Claim C10, witness: a concrete non-last parse reports neither switch
nor re-parse, and its result does not depend on the switch/watch
oracles. -/
theorem c10_switch_reparse_exclusive_witness :
    ((parseFile envW10 0 "mysql-bin.000003" 4 "rd/a.000001" true "a.000001" false).2 =
      .ok ⟨false, false, 4, "", ""⟩) ∧
    (¬((false : Bool) = true ∧ (false : Bool) = true)) ∧
    parseFile envW10 0 "mysql-bin.000003" 4 "rd/a.000001" true "a.000001" false =
      parseFile
        { envW10 with
          uuids := [], statSize := fun _ => none,
          readDir := fun _ => .error "x", watchSetupErr := some (.other "w"),
          watchResult := .error (.other "w") }
        0 "mysql-bin.000003" 4 "rd/a.000001" true "a.000001" false :=
  ⟨rfl,
   ((c10_switch_reparse_exclusive envW10 0 "mysql-bin.000003" 4 "rd/a.000001" "a.000001"
      true false).1 ⟨false, false, 4, "", ""⟩ rfl).1,
   ((c10_switch_reparse_exclusive envW10 0 "mysql-bin.000003" 4 "rd/a.000001" "a.000001"
      true false).2 rfl).2 [] (fun _ => none) (fun _ => .error "x") (some (.other "w"))
     (.error (.other "w"))⟩

end DM
